import Mathlib

/-!
Shallow embedding of the file-mailbox IPC repository (client.cpp, server.cpp,
the single-mailbox client, and the single-mailbox server embedded in the
README), together with theorems settling the frozen claims about it.

Modelling conventions:
- C strings (the char[256] payload buffers) are modelled as `List Char`,
  holding the bytes strictly before the NUL terminator.  `strncpy` with
  bound sizeof(data)-1 is modelled as `List.take 255`.
- The C `int` fields are modelled as `Int` (overflow never matters for the
  values the claims are about).
- File descriptors and the OS are modelled by explicit outcome values: a
  read of the record either fails at the seek, fails at the read call, or
  obtains `n` bytes of an underlying stored record.  Writes that the code
  performs are modelled as replacing the stored record ("seek to start,
  full-record write, flush" always writes the whole record).
- Sleeps and wall-clock timing are modelled by explicit per-iteration
  deadline flags in the polling traces; the cooperative `running` flag is
  modelled as staying true (signal handling is outside the claims).
-/

/-- The whitespace set " \t\n\r" used by the trimming in
isValidPingRequest (server.cpp). -/
def isWS (c : Char) : Bool :=
  c == ' ' || c == '\t' || c == '\n' || c == '\r'

/-- C tolower in the default locale, as applied char-by-char through
std::transform in server.cpp: maps A..Z to a..z and fixes everything else. -/
def cLower (c : Char) : Char :=
  if 'A' ≤ c ∧ c ≤ 'Z' then Char.ofNat (c.toNat + 32) else c

/-- The whitespace set skipped by std::stoi (C isspace, default locale). -/
def isSpaceC (c : Char) : Bool :=
  c == ' ' || c == '\t' || c == '\n' || c == '\x0b' || c == '\x0c' || c == '\r'

/-- Decimal digit test used when modelling std::stoi. -/
def isDigitC (c : Char) : Bool :=
  decide ('0' ≤ c ∧ c ≤ '9')

/-- Value of a list of decimal digits, most significant first. -/
def digitsVal (ds : List Char) : Nat :=
  ds.foldl (fun a c => a * 10 + (c.toNat - 48)) 0

/-- Model of std::stoi applied to a C++ string: skip leading whitespace,
accept an optional sign, then require at least one decimal digit and read
the maximal digit run; `none` models the thrown invalid_argument exception
(every call site of the repository wraps stoi in try/catch).  The
out_of_range overflow exception is not modelled; suffixes in the claims are
tiny. -/
def stoiM (cs : List Char) : Option Int :=
  let t := cs.dropWhile isSpaceC
  match t with
  | '-' :: r =>
    let ds := r.takeWhile isDigitC
    if ds = [] then none else some (-(digitsVal ds : Int))
  | '+' :: r =>
    let ds := r.takeWhile isDigitC
    if ds = [] then none else some ((digitsVal ds : Int))
  | _ =>
    let ds := t.takeWhile isDigitC
    if ds = [] then none else some ((digitsVal ds : Int))

/-- The multi-client exchange record: struct Message of client.cpp and
server.cpp, with fields status, client_id and data (the payload string held
by the 256-byte buffer). -/
structure Message where
  status : Int
  client_id : Int
  data : List Char
deriving DecidableEq

/-- sizeof(Message) for the multi-client record: 4 + 4 + 256 bytes. -/
def msgSize : Nat := 264

/-- The record produced by memset(&msg, 0, sizeof(Message)): status FREE,
client_id 0, empty payload. -/
def zeroMessage : Message := ⟨0, 0, []⟩

/-- The single-mailbox exchange record: struct Message of the single-mailbox
variant, with no client_id field. -/
structure SimpleMessage where
  status : Int
  data : List Char
deriving DecidableEq

/-- sizeof(Message) for the single-mailbox record: 4 + 256 bytes. -/
def sMsgSize : Nat := 260

/-- The zeroed single-mailbox record. -/
def sZeroMessage : SimpleMessage := ⟨0, []⟩

/-- Outcome of the lseek + read pair inside readMessage: the seek can fail,
the read call can fail, or the read obtains `n` bytes out of the stored
record `m` (for `n` below the record size only a partial image of `m` would
reach the buffer; readMessage never hands that to its caller). -/
inductive ReadOutcome where
  | seekFail : ReadOutcome
  | readFail : ReadOutcome
  | bytes (n : Nat) (m : Message) : ReadOutcome
deriving DecidableEq

/-- readMessage of client.cpp and server.cpp: seek failure or read failure
give false; a zero-byte read zeroes the buffer and succeeds; otherwise the
call succeeds exactly when the full record size was obtained. -/
def readMessage : ReadOutcome → Option Message
  | ReadOutcome.seekFail => none
  | ReadOutcome.readFail => none
  | ReadOutcome.bytes n m =>
    if n = 0 then some zeroMessage
    else if n = msgSize then some m else none

/-- Read outcome for the single-mailbox record. -/
inductive SReadOutcome where
  | seekFail : SReadOutcome
  | readFail : SReadOutcome
  | bytes (n : Nat) (m : SimpleMessage) : SReadOutcome
deriving DecidableEq

/-- readMessage of the single-mailbox variant (same structure as the
multi-client one, over the smaller record). -/
def sReadMessage : SReadOutcome → Option SimpleMessage
  | SReadOutcome.seekFail => none
  | SReadOutcome.readFail => none
  | SReadOutcome.bytes n m =>
    if n = 0 then some sZeroMessage
    else if n = sMsgSize then some m else none

/-- Model of std::string find_first_not_of(" \t\n\r"): index of the first
non-whitespace character, none when every character is whitespace (npos). -/
def findFirstNotWS : List Char → Option Nat
  | [] => none
  | c :: cs =>
    if isWS c then (findFirstNotWS cs).map (fun i => i + 1) else some 0

/-- Model of std::string find_last_not_of(" \t\n\r"): index of the last
non-whitespace character, obtained by searching the reversal. -/
def findLastNotWS (cs : List Char) : Option Nat :=
  (findFirstNotWS cs.reverse).map (fun i => cs.length - 1 - i)

/-- isValidPingRequest of server.cpp: find the first and last characters
outside " \t\n\r" (rejecting when none exists), take the substring between
them (substr start (end - start + 1)), lowercase it, and compare with the
literal "ping".  The nullptr guard is outside the model: payloads are
strings. -/
def isValidPingRequest (cs : List Char) : Bool :=
  match findFirstNotWS cs with
  | none => false
  | some s =>
    match findLastNotWS cs with
    | none => false
    | some e =>
      decide ((((cs.drop s).take (e - s + 1)).map cLower) = "ping".toList)

/-- Modelled from the claim wording: trimming surrounding whitespace from
both ends of the payload.  Used to compare isValidPingRequest against the
specification sentence. -/
def trimWS (cs : List Char) : List Char :=
  ((cs.dropWhile isWS).reverse.dropWhile isWS).reverse

/-- In-memory session state of the multi-instance server: the next client
id counter (starts at 1) and the known-clients set (std::set of int). -/
structure ServerSession where
  nextClientId : Int
  connectedClients : Finset Int
deriving DecidableEq

/-- The server session at startup: nextClientId = 1, empty set. -/
def initSession : ServerSession := ⟨1, ∅⟩

/-- Result of the id-assignment block of server.cpp main. -/
structure DispatchResult where
  session : ServerSession
  respondId : Int
  isNewClient : Bool
deriving DecidableEq

/-- The id-assignment block of server.cpp main: client_id == 0 gets the
next sequential id which is registered; a positive id not yet in the set is
registered as a newly observed client; anything else leaves the session
unchanged. -/
def dispatchClientId (s : ServerSession) (cid : Int) : DispatchResult :=
  if cid = 0 then
    let newId := s.nextClientId
    ⟨⟨s.nextClientId + 1, insert newId s.connectedClients⟩, newId, true⟩
  else if 0 < cid ∧ cid ∉ s.connectedClients then
    ⟨⟨s.nextClientId, insert cid s.connectedClients⟩, cid, true⟩
  else
    ⟨s, cid, false⟩

/-- Ids handed out, and final session, after n sequential brand-new
contacts (client_id = 0) with no interleaving. -/
def runNewClients (s : ServerSession) : Nat → List Int × ServerSession
  | 0 => ([], s)
  | n + 1 =>
    let r := dispatchClientId s 0
    let rest := runNewClients r.session n
    (r.respondId :: rest.1, rest.2)

/-- The ids assigned to N sequential new clients starting from the initial
session. -/
def assignedIds (n : Nat) : List Int :=
  (runNewClients initSession n).1

/-- The fixed error payload written by server.cpp for an invalid request. -/
def invalidPingPayload : List Char :=
  "ERROR: Only \x27ping\x27 is accepted".toList

/-- The pong payload of server.cpp for instance n answering client m. -/
def pongPayload (n m : Int) : List Char :=
  ("pong from server #" ++ toString n ++ " to client #" ++ toString m).toList

/-- One request-handling step of server.cpp main after a status=REQUEST
record msg was read: validation first (invalid requests are answered with
the fixed error payload, preserving client_id, with the session untouched),
then id assignment and the pong response.  strncpy bounds are the take 255.
Returns the new session and the RESPONSE record written back. -/
def mServerStep (s : ServerSession) (instNum : Int) (msg : Message) :
    ServerSession × Message :=
  if isValidPingRequest msg.data = false then
    (s, { msg with status := 2, data := invalidPingPayload.take 255 })
  else
    let r := dispatchClientId s msg.client_id
    (r.session,
      { status := 2, client_id := r.respondId,
        data := (pongPayload instNum r.respondId).take 255 })

/-- The mailbox filename stem of the multi-instance variant, the constant
named after the server file in both client.cpp and server.cpp. -/
def serverFilePfx : List Char := "ipc_server_".toList

/-- The per-file step of findMaxServerNumber in server.cpp, factored out:
a file participates when its name starts with the stem, contains a dot
after it, and the characters between stem and first dot parse with stoi;
non-numeric suffixes raise and are ignored. -/
def suffixOfName (name : List Char) : Option Int :=
  if serverFilePfx.isPrefixOf name then
    let numStr := name.drop serverFilePfx.length
    if numStr.contains '.' then stoiM (numStr.takeWhile (fun c => c != '.'))
    else none
  else none

/-- findMaxServerNumber of server.cpp: fold the directory listing keeping
the largest parsed suffix, starting from 0. -/
def findMaxServerNumber (listing : List (List Char)) : Int :=
  listing.foldl
    (fun maxNumber filename =>
      match suffixOfName filename with
      | some num => if num > maxNumber then num else maxNumber
      | none => maxNumber)
    0

/-- The numeric suffixes present in a directory listing (specification-side
view of the same extraction). -/
def numericSuffixes (listing : List (List Char)) : List Int :=
  listing.filterMap suffixOfName

/-- serverInstanceNumber as computed at the top of server.cpp main:
one more than the maximum existing suffix. -/
def serverInstanceNumber (listing : List (List Char)) : Int :=
  findMaxServerNumber listing + 1

/-- The two open calls the starting server can issue: O_RDWR|O_CREAT|O_EXCL
first, plain O_RDWR second. -/
inductive OpenMode where
  | exclusiveCreate : OpenMode
  | plain : OpenMode
deriving DecidableEq

/-- Whether each of the two open calls would succeed in the current
filesystem state. -/
structure OpenEnv where
  exclusiveOk : Bool
  plainOk : Bool

/-- The open calls attempted by server.cpp main, in order: the exclusive
create always comes first, the plain open only after it failed. -/
def serverOpenAttempts (env : OpenEnv) : List OpenMode :=
  if env.exclusiveOk then [OpenMode.exclusiveCreate]
  else [OpenMode.exclusiveCreate, OpenMode.plain]

/-- The descriptor the starting server ends up with: from the exclusive
create when it succeeds, else from the fallback plain open, else failure. -/
def serverOpenResult (env : OpenEnv) : Option OpenMode :=
  if env.exclusiveOk then some OpenMode.exclusiveCreate
  else if env.plainOk then some OpenMode.plain
  else none

/-- Model of std::string find(pat) != npos: whether pat occurs as a
contiguous substring. -/
def containsSeq (pat : List Char) : List Char → Bool
  | [] => pat.isEmpty
  | c :: rest => pat.isPrefixOf (c :: rest) || containsSeq pat rest

/-- The filename filter of findServerFiles in client.cpp: the name starts
with the server file stem (find(stem) == 0) and contains ".bin" somewhere
(find(".bin") != npos). -/
def matchesServerFile (name : List Char) : Bool :=
  serverFilePfx.isPrefixOf name && containsSeq ".bin".toList name

/-- Lexicographic comparison of std::string operator< used as the fallback
of the sort comparator. -/
def lexLt : List Char → List Char → Bool
  | [], [] => false
  | [], _ :: _ => true
  | _ :: _, [] => false
  | a :: as, b :: bs =>
    if a < b then true else if b < a then false else lexLt as bs

/-- The substring between the stem and the first dot, as computed inside
the sort comparator of findServerFiles (substr after the stem, cut at the
first dot; without a dot the whole remainder is kept). -/
def suffixStr (name : List Char) : List Char :=
  (name.drop serverFilePfx.length).takeWhile (fun c => c != '.')

/-- The comparator lambda of findServerFiles: when both suffixes parse with
stoi, larger number first (descending); when either parse throws, plain
lexicographic order of the full names. -/
def cmpFiles (a b : List Char) : Bool :=
  match stoiM (suffixStr a), stoiM (suffixStr b) with
  | some numA, some numB => numA > numB
  | _, _ => lexLt a b

/-- Insert one name into a list already ordered by the comparator.  Models
the ordering contract of std::sort: the result is some permutation ordered
by cmpFiles (std::sort fixes no particular one; with all-distinct numeric
suffixes the ordered permutation is unique). -/
def insertSorted (x : List Char) : List (List Char) → List (List Char)
  | [] => [x]
  | y :: ys => if cmpFiles x y then x :: y :: ys else y :: insertSorted x ys

/-- Sort a list of names by the comparator (insertion sort). -/
def sortFiles (l : List (List Char)) : List (List Char) :=
  l.foldr insertSorted []

/-- findServerFiles of client.cpp over a directory listing: keep the names
that start with the stem and contain ".bin", then sort with the comparator
(descending numeric suffix, lexicographic fallback). -/
def findServerFiles (listing : List (List Char)) : List (List Char) :=
  sortFiles (listing.filter matchesServerFile)

/-- checkServerAvailability of client.cpp: false when the open fails;
otherwise read the record, and report available exactly when the read
succeeded with status FREE (0) or RESPONSE (2). -/
def checkServerAvailability (openOk : Bool) (ro : ReadOutcome) : Bool :=
  if openOk then
    match readMessage ro with
    | some m => decide (m.status = 0 ∨ m.status = 2)
    | none => false
  else false

/-- autoConnectToServer of client.cpp over a listing and an availability
verdict per name: filter the discovered files by availability; none when
empty, the single element when alone, otherwise the first (the list is
already sorted newest first). -/
def autoConnectToServer (listing : List (List Char))
    (avail : List Char → Bool) : Option (List Char) :=
  let availableServers := (findServerFiles listing).filter avail
  if availableServers = [] then none
  else if availableServers.length = 1 then availableServers.head?
  else availableServers.head?

/-- Exits of the wait-until-free loop of the multi-instance client. -/
inductive WaitExit where
  | readFailed : WaitExit
  | sawFree : WaitExit
  | exhausted : WaitExit
deriving DecidableEq

/-- The wait-until-free loop of client.cpp main: while waitAttempts is
below the bound, read the record (a failed read breaks out at the current
count), stop on status FREE, else count the attempt and poll again.
`reads i` is the outcome of the i-th read; fuel is the remaining headroom
below MAX_WAIT_ATTEMPTS.  Returns the final waitAttempts and the exit. -/
def waitLoop (reads : Nat → Option Message) : Nat → Nat → Nat × WaitExit
  | a, 0 => (a, WaitExit.exhausted)
  | a, fuel + 1 =>
    match reads a with
    | none => (a, WaitExit.readFailed)
    | some m =>
      if m.status = 0 then (a, WaitExit.sawFree)
      else waitLoop reads (a + 1) fuel

/-- MAX_WAIT_ATTEMPTS of client.cpp. -/
def maxWaitAttempts : Nat := 5

/-- Outcome of one send attempt of the multi-instance client. -/
inductive SendPhase where
  | busy : SendPhase
  | requested (written : Message) : SendPhase
deriving DecidableEq

/-- The send path of client.cpp main: run the wait-until-free loop; when
the attempt count reached the bound report busy and abort without writing;
otherwise write the REQUEST record carrying the command and the current
client id. -/
def clientSendPhase (reads : Nat → Option Message) (cid : Int)
    (command : List Char) : SendPhase :=
  let r := waitLoop reads 0 maxWaitAttempts
  if maxWaitAttempts ≤ r.1 then SendPhase.busy
  else SendPhase.requested ⟨1, cid, command.take 255⟩

/-- Exits of the await-response loop of the multi-instance client.  Each
trace entry carries the outcome of that read of the record and whether the
5 s deadline had passed when this iteration checked the clock. -/
inductive AwaitExit where
  | readFailed : AwaitExit
  | response (m : Message) : AwaitExit
  | timedOut : AwaitExit
  | stopped : AwaitExit
deriving DecidableEq

/-- The await-response loop of client.cpp main: a failed read breaks out;
a RESPONSE record ends the wait; otherwise the loop times out once the
deadline has passed, else polls again.  An exhausted trace models the
running flag going false. -/
def awaitLoop : List (Option Message × Bool) → AwaitExit
  | [] => AwaitExit.stopped
  | (none, _) :: _ => AwaitExit.readFailed
  | (some m, deadline) :: rest =>
    if m.status = 2 then AwaitExit.response m
    else if deadline then AwaitExit.timedOut
    else awaitLoop rest

/-- The record written by the timeout branch of client.cpp main: status
back to FREE, client_id set to the current client id, payload cleared by
memset. -/
def afterTimeout (cid : Int) (msg : Message) : Message :=
  { msg with status := 0, client_id := cid, data := [] }

/-- Exits of the await-response loop of the single-mailbox client. -/
inductive SAwaitExit where
  | response (m : SimpleMessage) : SAwaitExit
  | timedOut : SAwaitExit
  | stopped : SAwaitExit
deriving DecidableEq

/-- The await-response loop of the single-mailbox client: a failed read
only backs off and polls again (the deadline is not consulted on that
path); a RESPONSE record ends the wait; otherwise time out once the
deadline has passed. -/
def sAwaitLoop : List (Option SimpleMessage × Bool) → SAwaitExit
  | [] => SAwaitExit.stopped
  | (none, _) :: rest => sAwaitLoop rest
  | (some m, deadline) :: rest =>
    if m.status = 2 then SAwaitExit.response m
    else if deadline then SAwaitExit.timedOut
    else sAwaitLoop rest

/-- The record written by the timeout branch of the single-mailbox client:
status back to FREE, payload cleared. -/
def sAfterTimeout (msg : SimpleMessage) : SimpleMessage :=
  { msg with status := 0, data := [] }

/-- isValidRequest of the single-mailbox server: reject the empty string
and anything shorter than 4 characters, accept the rest. -/
def isValidRequest (cs : List Char) : Bool :=
  if cs = [] then false
  else if cs.length < 4 then false
  else true

/-- extractRequestNumber of the single-mailbox server: -1 unless the
request starts with an opening bracket; then stoi on the remainder, with
-1 for the thrown exception. -/
def extractRequestNumber (cs : List Char) : Int :=
  match cs with
  | '[' :: rest =>
    match stoiM rest with
    | some n => n
    | none => -1
  | _ => -1

/-- The strchr scan of extractRequestText: the characters after the first
closing bracket, none when there is no closing bracket. -/
def afterBracket : List Char → Option (List Char)
  | [] => none
  | ']' :: rest => some rest
  | _ :: rest => afterBracket rest

/-- extractRequestText of the single-mailbox server: empty unless a closing
bracket exists and is immediately followed by a space; then everything
after that space. -/
def extractRequestText (cs : List Char) : List Char :=
  match afterBracket cs with
  | none => []
  | some rest =>
    match rest with
    | ' ' :: t => t
    | _ => []

/-- processRequest of the single-mailbox server, as the pair (response
payload, error flag).  The simulated delays (sleeps) have no effect on the
returned data and are not modelled. -/
def processRequest (cs : List Char) : List Char × Bool :=
  let reqNumber := extractRequestNumber cs
  let reqText := extractRequestText cs
  if reqNumber = -1 ∨ reqText = [] then
    ("ERROR: Invalid request format".toList, true)
  else if reqText = "error".toList then
    ("ERROR: Simulated processing error".toList, true)
  else if reqText = "timeout".toList then
    ("Response after timeout simulation".toList, false)
  else if reqText = "crash".toList then
    ("This should not be reached".toList, false)
  else if reqText = "invalid".toList then
    ([], false)
  else
    ("OK".toList, false)

/-- Result of one request-handling step of the single-mailbox server:
the updated counters and the RESPONSE record written back. -/
structure SingleStep where
  processed : Nat
  errors : Nat
  response : SimpleMessage
deriving DecidableEq

/-- One request-handling step of the single-mailbox server main loop after
a status=REQUEST record was read: the processed counter is incremented
first, before validation; an invalid request bumps the error counter and
answers with the fixed format-error payload; a valid one goes through
processRequest, whose error flag bumps the error counter. -/
def singleServerStep (processed errors : Nat) (msg : SimpleMessage) :
    SingleStep :=
  let processed1 := processed + 1
  if isValidRequest msg.data = false then
    ⟨processed1, errors + 1,
      { msg with status := 2,
                 data := "ERROR: Invalid request format".toList.take 255 }⟩
  else
    let pr := processRequest msg.data
    ⟨processed1, errors + (if pr.2 then 1 else 0),
      { msg with status := 2, data := pr.1.take 255 }⟩

/-- C2: for every handle state, the record-codec read has exactly three
outcomes: a full-size read yields the stored record and succeeds; a
zero-byte read succeeds with the zero-valued record (status FREE, client_id
0, empty payload); any other byte count, or a failed seek or read call,
fails and hands no partial data to the caller. -/
theorem C2_codec_trichotomy (o : ReadOutcome) :
    (∀ m : Message, o = ReadOutcome.bytes msgSize m → readMessage o = some m) ∧
    (∀ m : Message, o = ReadOutcome.bytes 0 m →
      readMessage o = some zeroMessage ∧ zeroMessage.status = 0 ∧
        zeroMessage.client_id = 0 ∧ zeroMessage.data = []) ∧
    (∀ (n : Nat) (m : Message), o = ReadOutcome.bytes n m → n ≠ 0 →
      n ≠ msgSize → readMessage o = none) ∧
    (o = ReadOutcome.seekFail → readMessage o = none) ∧
    (o = ReadOutcome.readFail → readMessage o = none) := by
  refine ⟨?_, ?_, ?_, ?_, ?_⟩
  · intro m h
    subst h
    simp [readMessage, msgSize]
  · intro m h
    subst h
    exact ⟨by simp [readMessage], rfl, rfl, rfl⟩
  · intro n m h hn hsz
    subst h
    simp [readMessage, hn, hsz]
  · intro h
    subst h
    rfl
  · intro h
    subst h
    rfl

/-- Witness for C2 at concrete read outcomes. -/
theorem C2_codec_trichotomy_witness :
    readMessage (ReadOutcome.bytes msgSize zeroMessage) = some zeroMessage ∧
    readMessage (ReadOutcome.bytes 0 ⟨1, 7, []⟩) = some zeroMessage ∧
    readMessage (ReadOutcome.bytes 5 zeroMessage) = none ∧
    readMessage ReadOutcome.seekFail = none := by
  refine ⟨?_, ?_, ?_, ?_⟩
  · exact (C2_codec_trichotomy _).1 zeroMessage rfl
  · exact ((C2_codec_trichotomy _).2.1 ⟨1, 7, []⟩ rfl).1
  · exact (C2_codec_trichotomy _).2.2.1 5 zeroMessage rfl (by decide) (by decide)
  · exact (C2_codec_trichotomy _).2.2.2.1 rfl

/-- C9 (amended): the discovery liveness check reports a candidate
available exactly when its file opens and the record read succeeds (a full
read, or a zero-byte read of empty storage yielding the zero record) with
resulting status FREE (0) or RESPONSE (2); a fully read record with status
REQUEST (1) is never reported available. -/
theorem C9_availability_characterization :
    (∀ (openOk : Bool) (ro : ReadOutcome),
      checkServerAvailability openOk ro = true ↔
        (openOk = true ∧
          ∃ m, readMessage ro = some m ∧ (m.status = 0 ∨ m.status = 2))) ∧
    (∀ m : Message, m.status = 1 →
      checkServerAvailability true (ReadOutcome.bytes msgSize m) = false) := by
  constructor
  · intro openOk ro
    cases openOk with
    | false => simp [checkServerAvailability]
    | true =>
      cases h : readMessage ro with
      | none => simp [checkServerAvailability, h]
      | some m => simp [checkServerAvailability, h]
  · intro m hm
    simp [checkServerAvailability, readMessage, msgSize, hm]

/-- Witness for C9 at a fully read REQUEST record. -/
theorem C9_availability_characterization_witness :
    checkServerAvailability true (ReadOutcome.bytes msgSize ⟨1, 0, []⟩) = false :=
  C9_availability_characterization.2 ⟨1, 0, []⟩ rfl

/-- Counterexample to C9 as stated: an open file whose read obtains zero
bytes (not a full record) is still reported available, because the
zero-byte read succeeds with the zero record whose status is FREE; here the
underlying stored record even has status REQUEST. -/
theorem C9_counterexample :
    checkServerAvailability true (ReadOutcome.bytes 0 ⟨1, 5, []⟩) = true ∧
    (0 : Nat) ≠ msgSize := by
  exact ⟨by decide, by decide⟩

/-- C4: whenever the await-response poll of a client times out without
having observed status RESPONSE, the record the client writes back before
reporting the timeout has status FREE and a cleared payload, so a
subsequent full read of the mailbox observes status FREE (never REQUEST).
Both variants are covered: the multi-instance client (which also stamps its
client id) and the single-mailbox client. -/
theorem C4_timeout_resets_mailbox :
    (∀ (tr : List (Option Message × Bool)) (cid : Int) (m : Message),
      awaitLoop tr = AwaitExit.timedOut →
        (afterTimeout cid m).status = 0 ∧ (afterTimeout cid m).data = [] ∧
        (afterTimeout cid m).status ≠ 1 ∧
        readMessage (ReadOutcome.bytes msgSize (afterTimeout cid m)) =
          some (afterTimeout cid m)) ∧
    (∀ (tr : List (Option SimpleMessage × Bool)) (m : SimpleMessage),
      sAwaitLoop tr = SAwaitExit.timedOut →
        (sAfterTimeout m).status = 0 ∧ (sAfterTimeout m).data = [] ∧
        (sAfterTimeout m).status ≠ 1 ∧
        sReadMessage (SReadOutcome.bytes sMsgSize (sAfterTimeout m)) =
          some (sAfterTimeout m)) := by
  constructor
  · intro tr cid m _
    refine ⟨rfl, rfl, by simp [afterTimeout], ?_⟩
    simp [readMessage, msgSize]
  · intro tr m _
    refine ⟨rfl, rfl, by simp [sAfterTimeout], ?_⟩
    simp [sReadMessage, sMsgSize]

/-- Witness for C4: concrete timed-out polling traces for both variants. -/
theorem C4_timeout_resets_mailbox_witness :
    awaitLoop [(some ⟨1, 0, []⟩, true)] = AwaitExit.timedOut ∧
    readMessage (ReadOutcome.bytes msgSize (afterTimeout 3 ⟨1, 3, "ping".toList⟩)) =
      some (afterTimeout 3 ⟨1, 3, "ping".toList⟩) ∧
    sAwaitLoop [(none, true), (some ⟨1, []⟩, true)] = SAwaitExit.timedOut ∧
    (sAfterTimeout ⟨1, "hello".toList⟩).status = 0 := by
  refine ⟨by decide, ?_, by decide, ?_⟩
  · exact (C4_timeout_resets_mailbox.1 [(some ⟨1, 0, []⟩, true)] 3
      ⟨1, 3, "ping".toList⟩ (by decide)).2.2.2
  · exact (C4_timeout_resets_mailbox.2 [(none, true), (some ⟨1, []⟩, true)]
      ⟨1, "hello".toList⟩ (by decide)).1

/-- The wait-until-free loop exhausts its full budget when every read in
the window succeeds with a non-FREE status. -/
theorem waitLoop_busy (reads : Nat → Option Message) :
    ∀ (fuel a : Nat),
      (∀ i, a ≤ i → i < a + fuel → ∃ m, reads i = some m ∧ m.status ≠ 0) →
      waitLoop reads a fuel = (a + fuel, WaitExit.exhausted) := by
  intro fuel
  induction fuel with
  | zero =>
    intro a _
    simp [waitLoop]
  | succ n ih =>
    intro a h
    obtain ⟨m, hm, hs⟩ := h a (le_refl a) (by omega)
    have step : waitLoop reads a (n + 1) = waitLoop reads (a + 1) n := by
      simp [waitLoop, hm, hs]
    rw [step, ih (a + 1) (fun i h1 h2 => h i (by omega) (by omega))]
    congr 1
    omega

/-- The wait-until-free loop stops at the current count when a read fails
after k successful non-FREE reads. -/
theorem waitLoop_readFailed (reads : Nat → Option Message) :
    ∀ (k fuel a : Nat), k < fuel →
      (∀ i, i < k → ∃ m, reads (a + i) = some m ∧ m.status ≠ 0) →
      reads (a + k) = none →
      waitLoop reads a fuel = (a + k, WaitExit.readFailed) := by
  intro k
  induction k with
  | zero =>
    intro fuel a hk _ hnone
    cases fuel with
    | zero => omega
    | succ n =>
      have ha : reads a = none := by simpa using hnone
      simp [waitLoop, ha]
  | succ j ih =>
    intro fuel a hk h hnone
    cases fuel with
    | zero => omega
    | succ n =>
      obtain ⟨m, hm, hs⟩ := h 0 (by omega)
      have hm0 : reads a = some m := by simpa using hm
      have step : waitLoop reads a (n + 1) = waitLoop reads (a + 1) n := by
        simp [waitLoop, hm0, hs]
      have hshift : ∀ i, i < j → ∃ m, reads (a + 1 + i) = some m ∧ m.status ≠ 0 := by
        intro i hi
        obtain ⟨m, hm, hs⟩ := h (i + 1) (by omega)
        exact ⟨m, by rw [show a + 1 + i = a + (i + 1) by omega]; exact hm, hs⟩
      rw [step, ih n (a + 1) (by omega) hshift
        (by rw [show a + 1 + j = a + (j + 1) by omega]; exact hnone)]
      congr 1
      omega

/-- C5: a wait-for-free attempt against a mailbox whose status stays
REQUEST through the whole attempt budget exhausts all five attempts and
ends busy: the client reports the busy outcome and writes no REQUEST
record of its own. -/
theorem C5_busy_mailbox_aborts (reads : Nat → Option Message) (cid : Int)
    (command : List Char)
    (h : ∀ i, i < maxWaitAttempts → ∃ m, reads i = some m ∧ m.status = 1) :
    (waitLoop reads 0 maxWaitAttempts).1 = maxWaitAttempts ∧
    clientSendPhase reads cid command = SendPhase.busy := by
  have hw : waitLoop reads 0 maxWaitAttempts =
      (0 + maxWaitAttempts, WaitExit.exhausted) := by
    apply waitLoop_busy
    intro i _ hi
    obtain ⟨m, hm, hs⟩ := h i (by omega)
    exact ⟨m, hm, by rw [hs]; decide⟩
  constructor
  · rw [hw]
    simp
  · simp [clientSendPhase, hw]

/-- Witness for C5: a mailbox permanently reading as REQUEST. -/
theorem C5_busy_mailbox_aborts_witness :
    clientSendPhase (fun _ => some ⟨1, 0, []⟩) 0 "ping".toList =
      SendPhase.busy :=
  (C5_busy_mailbox_aborts (fun _ => some ⟨1, 0, []⟩) 0 "ping".toList
    (fun _ _ => ⟨⟨1, 0, []⟩, rfl, rfl⟩)).2

/-- C10: when a read of the mailbox fails during the wait-for-free loop
after k successful non-FREE reads with k below the attempt budget, the loop
exits with the attempt counter at k (below the maximum) and the client
proceeds to write a REQUEST record although it never observed status FREE. -/
theorem C10_read_failure_sends_anyway (reads : Nat → Option Message)
    (cid : Int) (command : List Char) (k : Nat) (hk : k < maxWaitAttempts)
    (h : ∀ i, i < k → ∃ m, reads i = some m ∧ m.status ≠ 0)
    (hfail : reads k = none) :
    (waitLoop reads 0 maxWaitAttempts).1 = k ∧ k < maxWaitAttempts ∧
    clientSendPhase reads cid command =
      SendPhase.requested ⟨1, cid, command.take 255⟩ := by
  have hw : waitLoop reads 0 maxWaitAttempts = (0 + k, WaitExit.readFailed) := by
    apply waitLoop_readFailed reads k maxWaitAttempts 0 hk
    · intro i hi
      simpa using h i hi
    · simpa using hfail
  refine ⟨by rw [hw]; simp, hk, ?_⟩
  have hnot : ¬ maxWaitAttempts ≤ (waitLoop reads 0 maxWaitAttempts).1 := by
    rw [hw]
    simpa using hk
  simp [clientSendPhase, hnot]

/-- Witness for C10: one busy read, then a failing read, at attempt 1 of 5. -/
theorem C10_read_failure_sends_anyway_witness :
    clientSendPhase (fun i => if i = 0 then some ⟨1, 5, []⟩ else none) 0
      "ping".toList = SendPhase.requested ⟨1, 0, "ping".toList.take 255⟩ :=
  (C10_read_failure_sends_anyway (fun i => if i = 0 then some ⟨1, 5, []⟩ else none)
    0 "ping".toList 1 (by decide)
    (fun i hi => ⟨⟨1, 5, []⟩, by
      have : i = 0 := by omega
      subst this
      rfl, by decide⟩)
    rfl).2.2

/-- Running n brand-new contacts from any session hands out the n
consecutive ids from the current counter, advances the counter by n, and
adds exactly those ids to the known-clients set. -/
theorem runNewClients_spec :
    ∀ (n : Nat) (s : ServerSession),
      (runNewClients s n).1 =
        (List.range n).map (fun i : Nat => s.nextClientId + (i : Int)) ∧
      (runNewClients s n).2.nextClientId = s.nextClientId + n ∧
      (runNewClients s n).2.connectedClients =
        s.connectedClients ∪ ((runNewClients s n).1).toFinset := by
  intro n
  induction n with
  | zero =>
    intro s
    simp [runNewClients]
  | succ k ih =>
    intro s
    have hd : dispatchClientId s 0 =
        ⟨⟨s.nextClientId + 1, insert s.nextClientId s.connectedClients⟩,
          s.nextClientId, true⟩ := by
      simp [dispatchClientId]
    obtain ⟨h1, h2, h3⟩ :=
      ih ⟨s.nextClientId + 1, insert s.nextClientId s.connectedClients⟩
    have hstep : runNewClients s (k + 1) =
        (s.nextClientId ::
          (runNewClients ⟨s.nextClientId + 1,
            insert s.nextClientId s.connectedClients⟩ k).1,
         (runNewClients ⟨s.nextClientId + 1,
            insert s.nextClientId s.connectedClients⟩ k).2) := by
      simp [runNewClients, hd]
    refine ⟨?_, ?_, ?_⟩
    · rw [hstep]
      simp only [h1, List.range_succ_eq_map, List.map_cons, List.map_map]
      congr 1
      · simp
      · apply List.map_congr_left
        intro i _
        simp [Function.comp]
        ring
    · rw [hstep]
      simp only [h2]
      push_cast
      ring
    · rw [hstep]
      simp only [h3, h1]
      rw [List.toFinset_cons, Finset.union_insert, Finset.insert_union]

/-- C3 (amended): N sequential valid requests with client_id = 0 receive
ids 1, 2, ..., N — pairwise distinct, strictly increasing, starting at 1 —
each registered in the known-clients set; a valid request with a positive,
previously unseen client_id is registered as a newly observed client and
answered normally (not an error).  A negative client_id is neither
registered nor reassigned (the code only registers positive ids). -/
theorem C3_id_assignment :
    (∀ n : Nat, assignedIds n =
      (List.range n).map (fun i : Nat => (i : Int) + 1)) ∧
    (∀ n : Nat, (assignedIds n).Pairwise (fun a b => a < b)) ∧
    (∀ n : Nat, 0 < n → (assignedIds n).head? = some 1) ∧
    (∀ n : Nat, (runNewClients initSession n).2.connectedClients =
      (assignedIds n).toFinset) ∧
    (∀ (s : ServerSession) (cid : Int), 0 < cid → cid ∉ s.connectedClients →
      dispatchClientId s cid =
        ⟨⟨s.nextClientId, insert cid s.connectedClients⟩, cid, true⟩) := by
  have hids : ∀ n : Nat, assignedIds n =
      (List.range n).map (fun i : Nat => (i : Int) + 1) := by
    intro n
    have h := (runNewClients_spec n initSession).1
    rw [assignedIds, h]
    apply List.map_congr_left
    intro i _
    simp [initSession]
    ring
  refine ⟨hids, ?_, ?_, ?_, ?_⟩
  · intro n
    rw [hids n]
    refine List.Pairwise.map _ ?_ (List.pairwise_lt_range n)
    intro a b hab
    have : (a : Int) < b := by exact_mod_cast hab
    omega
  · intro n hn
    cases n with
    | zero => omega
    | succ k =>
      rw [hids (k + 1), List.range_succ_eq_map]
      simp
  · intro n
    have h := (runNewClients_spec n initSession).2.2
    rw [assignedIds, h]
    simp [initSession]
  · intro s cid hpos hnot
    rw [dispatchClientId, if_neg (by omega), if_pos ⟨hpos, hnot⟩]

/-- Witness for C3 at three new clients and one reconnecting client. -/
theorem C3_id_assignment_witness :
    (assignedIds 3).head? = some 1 ∧
    dispatchClientId initSession 7 =
      ⟨⟨1, insert 7 ∅⟩, 7, true⟩ := by
  constructor
  · exact C3_id_assignment.2.2.1 3 (by decide)
  · exact C3_id_assignment.2.2.2.2 initSession 7 (by decide) (by decide)

/-- Counterexample to C3 as stated: a valid request (payload "ping") with
the nonzero, previously unseen client_id -1 is not registered in the
known-clients set (the code registers only positive unseen ids), leaving
the session unchanged. -/
theorem C3_counterexample :
    isValidPingRequest "ping".toList = true ∧
    (mServerStep initSession 1 ⟨1, -1, "ping".toList⟩).1 = initSession ∧
    (-1 : Int) ∉ (mServerStep initSession 1 ⟨1, -1, "ping".toList⟩).1.connectedClients ∧
    dispatchClientId initSession (-1) = ⟨initSession, -1, false⟩ := by
  refine ⟨by decide, ?_, ?_, rfl⟩
  · rfl
  · decide

/-- Membership through one sorted insertion. -/
theorem mem_insertSorted (x y : List Char) :
    ∀ l, y ∈ insertSorted x l ↔ y = x ∨ y ∈ l := by
  intro l
  induction l with
  | nil => simp [insertSorted]
  | cons z zs ih =>
    by_cases h : cmpFiles x z = true
    · simp [insertSorted, h]
    · simp [insertSorted, h, ih]
      tauto

/-- Sorting the discovered files keeps exactly the same members. -/
theorem mem_sortFiles (y : List Char) : ∀ l, y ∈ sortFiles l ↔ y ∈ l := by
  intro l
  induction l with
  | nil => simp [sortFiles]
  | cons x xs ih =>
    have : sortFiles (x :: xs) = insertSorted x (sortFiles xs) := rfl
    rw [this, mem_insertSorted, ih]
    simp

/-- C7 (amended): discovery enumeration returns exactly the artifacts whose
name starts with the fixed stem and contains the extension; candidates with
non-numeric suffixes stay in the candidate set (sorted by the lexicographic
fallback of the comparator); numeric candidates are sorted by descending
suffix, so suffixes {3, 1, 7, 2} come out as [7, 3, 2, 1], and selection
binds to the first (highest-numbered) available candidate. -/
theorem C7_discovery_enumeration :
    (∀ (listing : List (List Char)) (x : List Char),
      x ∈ findServerFiles listing ↔
        (x ∈ listing ∧ matchesServerFile x = true)) ∧
    findServerFiles
        ["ipc_server_3.bin".toList, "ipc_server_1.bin".toList,
         "ipc_server_7.bin".toList, "ipc_server_2.bin".toList] =
      ["ipc_server_7.bin".toList, "ipc_server_3.bin".toList,
       "ipc_server_2.bin".toList, "ipc_server_1.bin".toList] ∧
    autoConnectToServer
        ["ipc_server_3.bin".toList, "ipc_server_1.bin".toList,
         "ipc_server_7.bin".toList, "ipc_server_2.bin".toList]
        (fun _ => true) = some "ipc_server_7.bin".toList := by
  refine ⟨?_, by decide, by decide⟩
  intro listing x
  rw [findServerFiles, mem_sortFiles, List.mem_filter]

/-- Counterexample to C7 as stated: a candidate with the non-numeric suffix
"abc" is not excluded from the candidate set — enumeration returns it. -/
theorem C7_counterexample :
    findServerFiles ["ipc_server_abc.bin".toList] =
      ["ipc_server_abc.bin".toList] := by
  decide

/-- The running-maximum update of findMaxServerNumber is the lattice max. -/
theorem if_gt_eq_max (a n : Int) : (if n > a then n else a) = max a n := by
  rcases le_or_lt n a with h | h
  · rw [if_neg (not_lt.mpr h), max_eq_left h]
  · rw [if_pos h, max_eq_right h.le]

/-- The findMaxServerNumber fold equals folding max over the parsed
numeric suffixes. -/
theorem foldl_suffix_max :
    ∀ (l : List (List Char)) (a : Int),
      l.foldl
        (fun maxNumber filename =>
          match suffixOfName filename with
          | some num => if num > maxNumber then num else maxNumber
          | none => maxNumber) a =
      (l.filterMap suffixOfName).foldl (fun x y => max x y) a := by
  intro l
  induction l with
  | nil => intro a; rfl
  | cons x xs ih =>
    intro a
    cases h : suffixOfName x with
    | none => simp [List.foldl_cons, List.filterMap_cons, h, ih]
    | some n =>
      simp only [List.foldl_cons, List.filterMap_cons, h]
      rw [if_gt_eq_max a n]
      exact ih (max a n)

/-- Folding max from a lower bound lands on the stated maximum. -/
theorem foldl_max_eq_of_mem :
    ∀ (l : List Int) (a m : Int), a ≤ m → (m ∈ l ∨ a = m) →
      (∀ n ∈ l, n ≤ m) → l.foldl (fun x y => max x y) a = m := by
  intro l
  induction l with
  | nil =>
    intro a m _ hm _
    rcases hm with h | h
    · simp at h
    · simpa using h
  | cons x xs ih =>
    intro a m ha hm hb
    have hx : x ≤ m := hb x (List.mem_cons_self x xs)
    apply ih (max a x) m (max_le ha hx)
    · rcases hm with h | h
      · rcases List.mem_cons.mp h with h | h
        · subst h
          right
          exact max_eq_right ha
        · left
          exact h
      · subst h
        right
        exact max_eq_left hx
    · intro n hn
      exact hb n (List.mem_cons_of_mem x hn)

/-- C8: a starting multi-instance server numbers itself exactly one above
the maximum numeric suffix among existing stem-matching artifacts (liveness
ignored; non-numeric suffixes absent), and opens its mailbox by attempting
exclusive creation first, falling back to opening the existing file when
exclusive creation fails. -/
theorem C8_instance_numbering (listing : List (List Char)) (env : OpenEnv)
    (m : Int) (hmem : m ∈ numericSuffixes listing)
    (hmax : ∀ n ∈ numericSuffixes listing, n ≤ m) (h0 : 0 ≤ m) :
    serverInstanceNumber listing = m + 1 ∧
    (serverOpenAttempts env).head? = some OpenMode.exclusiveCreate ∧
    (env.exclusiveOk = true → serverOpenResult env = some OpenMode.exclusiveCreate) ∧
    (env.exclusiveOk = false → env.plainOk = true →
      serverOpenResult env = some OpenMode.plain) := by
  refine ⟨?_, ?_, ?_, ?_⟩
  · rw [serverInstanceNumber, findMaxServerNumber, foldl_suffix_max listing 0]
    have hfold := foldl_max_eq_of_mem (numericSuffixes listing) 0 m h0 (Or.inl hmem) hmax
    exact congrArg (fun z => z + 1) hfold
  · cases h : env.exclusiveOk <;> simp [serverOpenAttempts, h]
  · intro h
    simp [serverOpenResult, h]
  · intro h1 h2
    simp [serverOpenResult, h1, h2]

/-- Witness for C8 at a listing whose numeric suffixes are 3 and 1 (plus a
foreign non-numeric name) and a filesystem where exclusive creation fails. -/
theorem C8_instance_numbering_witness :
    serverInstanceNumber
        ["ipc_server_3.bin".toList, "ipc_server_x.bin".toList,
         "ipc_server_1.bin".toList] = 4 ∧
    serverOpenResult ⟨false, true⟩ = some OpenMode.plain := by
  have h := C8_instance_numbering
    ["ipc_server_3.bin".toList, "ipc_server_x.bin".toList,
     "ipc_server_1.bin".toList] ⟨false, true⟩ 3
    (by decide) (by decide) (by decide)
  exact ⟨h.1, h.2.2.2 rfl rfl⟩

/-- find_first_not_of finds nothing exactly on all-whitespace strings. -/
theorem findFirstNotWS_none_iff :
    ∀ cs : List Char, findFirstNotWS cs = none ↔ cs.all isWS = true := by
  intro cs
  induction cs with
  | nil => simp [findFirstNotWS]
  | cons c cs ih =>
    by_cases h : isWS c = true
    · simp [findFirstNotWS, h, ih]
    · simp [findFirstNotWS, h]

/-- A found first non-whitespace index is inside the string. -/
theorem findFirstNotWS_lt_length :
    ∀ (cs : List Char) (s : Nat), findFirstNotWS cs = some s → s < cs.length := by
  intro cs
  induction cs with
  | nil => intro s h; simp [findFirstNotWS] at h
  | cons c cs ih =>
    intro s h
    by_cases hc : isWS c = true
    · simp only [findFirstNotWS, if_pos hc] at h
      obtain ⟨a, ha, hs⟩ := Option.map_eq_some'.mp h
      have := ih a ha
      simp
      omega
    · simp [findFirstNotWS, hc] at h
      subst h
      simp

/-- Dropping up to the first non-whitespace index is dropWhile. -/
theorem drop_findFirstNotWS :
    ∀ (cs : List Char) (s : Nat), findFirstNotWS cs = some s →
      cs.drop s = cs.dropWhile isWS := by
  intro cs
  induction cs with
  | nil => intro s h; simp [findFirstNotWS] at h
  | cons c cs ih =>
    intro s h
    by_cases hc : isWS c = true
    · simp only [findFirstNotWS, if_pos hc] at h
      obtain ⟨a, ha, hs⟩ := Option.map_eq_some'.mp h
      subst hs
      rw [List.drop_succ_cons, List.dropWhile_cons, if_pos hc]
      exact ih a ha
    · simp [findFirstNotWS, hc] at h
      subst h
      rw [List.drop_zero, List.dropWhile_cons, if_neg hc]

/-- The first non-whitespace index is stable under appending on the right. -/
theorem findFirstNotWS_append_left :
    ∀ (a b : List Char) (s : Nat), findFirstNotWS a = some s →
      findFirstNotWS (a ++ b) = some s := by
  intro a
  induction a with
  | nil => intro b s h; simp [findFirstNotWS] at h
  | cons c cs ih =>
    intro b s h
    by_cases hc : isWS c = true
    · simp only [findFirstNotWS, if_pos hc] at h
      obtain ⟨a', ha', hs⟩ := Option.map_eq_some'.mp h
      simp only [List.cons_append, findFirstNotWS, if_pos hc]
      show Option.map (fun i => i + 1) (findFirstNotWS (cs ++ b)) = some s
      rw [ih b a' ha']
      simp [hs]
    · simp only [findFirstNotWS, if_neg hc] at h
      simp only [List.cons_append, findFirstNotWS, if_neg hc]
      exact h

/-- The index-based validation of server.cpp agrees with trimming both ends
and comparing the lowercased remainder with "ping". -/
theorem isValidPingRequest_eq_trim (cs : List Char) :
    isValidPingRequest cs = decide ((trimWS cs).map cLower = "ping".toList) := by
  cases hf : findFirstNotWS cs with
  | none =>
    have hall : ∀ x ∈ cs, isWS x = true := by
      have := (findFirstNotWS_none_iff cs).mp hf
      simpa [List.all_eq_true] using this
    have hdrop : cs.dropWhile isWS = [] := List.dropWhile_eq_nil_iff.mpr hall
    simp [isValidPingRequest, hf, trimWS, hdrop]
  | some s =>
    have hdrop : cs.drop s = cs.dropWhile isWS := drop_findFirstNotWS cs s hf
    have hslt : s < cs.length := findFirstNotWS_lt_length cs s hf
    have hL : (cs.dropWhile isWS).length = cs.length - s := by
      rw [← hdrop, List.length_drop]
    have hlne : cs.dropWhile isWS ≠ [] := by
      intro h0
      rw [h0] at hL
      simp at hL
      omega
    have hhead : isWS ((cs.dropWhile isWS).head hlne) = false :=
      List.head_dropWhile_not isWS cs hlne
    have hrevne : findFirstNotWS (cs.dropWhile isWS).reverse ≠ none := by
      intro hnone
      have hall := (findFirstNotWS_none_iff (cs.dropWhile isWS).reverse).mp hnone
      rw [List.all_eq_true] at hall
      have hh : (cs.dropWhile isWS).head hlne ∈ (cs.dropWhile isWS).reverse := by
        rw [List.mem_reverse]
        exact List.head_mem hlne
      have hcontra := hall _ hh
      rw [hhead] at hcontra
      exact Bool.false_ne_true hcontra
    cases hri : findFirstNotWS (cs.dropWhile isWS).reverse with
    | none => exact absurd hri hrevne
    | some i0 =>
      have hcsrev : cs.reverse =
          (cs.dropWhile isWS).reverse ++ (cs.takeWhile isWS).reverse := by
        conv_lhs => rw [← List.takeWhile_append_dropWhile (p := isWS) (l := cs)]
        rw [List.reverse_append]
      have hfr : findFirstNotWS cs.reverse = some i0 := by
        rw [hcsrev]
        exact findFirstNotWS_append_left (cs.dropWhile isWS).reverse _ i0 hri
      have hlast : findLastNotWS cs = some (cs.length - 1 - i0) := by
        rw [findLastNotWS, hfr]
        rfl
      have hi0 : i0 < (cs.dropWhile isWS).length := by
        have := findFirstNotWS_lt_length (cs.dropWhile isWS).reverse i0 hri
        simpa using this
      have htake : (cs.dropWhile isWS).take ((cs.dropWhile isWS).length - i0) =
          ((cs.dropWhile isWS).reverse.dropWhile isWS).reverse := by
        have hdr : (cs.dropWhile isWS).reverse.drop i0 =
            (cs.dropWhile isWS).reverse.dropWhile isWS :=
          drop_findFirstNotWS (cs.dropWhile isWS).reverse i0 hri
        rw [← hdr, List.reverse_drop]
        simp
      have harith : cs.length - 1 - i0 - s + 1 = (cs.dropWhile isWS).length - i0 := by
        omega
      have hkey : (cs.drop s).take (cs.length - 1 - i0 - s + 1) = trimWS cs := by
        rw [hdrop, harith, htake, trimWS]
      simp only [isValidPingRequest, hf, hlast]
      rw [hkey]

/-- C6: the multi-instance server accepts a payload exactly when, after
trimming surrounding whitespace (spaces, tabs, newlines, carriage returns)
from both ends, the remaining text case-insensitively equals the literal
"ping"; an all-whitespace or empty payload is rejected. -/
theorem C6_ping_validation :
    (∀ cs : List Char,
      isValidPingRequest cs =
        decide ((trimWS cs).map cLower = "ping".toList)) ∧
    (∀ cs : List Char, cs.all isWS = true → isValidPingRequest cs = false) := by
  refine ⟨isValidPingRequest_eq_trim, ?_⟩
  intro cs hall
  rw [isValidPingRequest_eq_trim cs]
  have hdrop : cs.dropWhile isWS = [] :=
    List.dropWhile_eq_nil_iff.mpr (by simpa [List.all_eq_true] using hall)
  simp [trimWS, hdrop]

/-- Witness for C6 at all-whitespace, mixed-case valid and invalid inputs. -/
theorem C6_ping_validation_witness :
    isValidPingRequest "  \t ".toList = false ∧
    isValidPingRequest " PiNg ".toList = true ∧
    isValidPingRequest "PONG".toList = false := by
  refine ⟨C6_ping_validation.2 "  \t ".toList (by decide), by decide, by decide⟩

/-- C1 (amended): a request payload that fails validation is answered
immediately with a RESPONSE record carrying the fixed error payload.  The
multi-instance ping server preserves client_id and leaves its session
(next-id counter and known-clients set) untouched.  The single-mailbox
structured-request server writes its fixed error payload but increments
its processed-request counter — that counter counts every received
request, before validation — together with its error counter. -/
theorem C1_invalid_payload_handling :
    (∀ (s : ServerSession) (instNum : Int) (msg : Message),
      isValidPingRequest msg.data = false →
        (mServerStep s instNum msg).1 = s ∧
        (mServerStep s instNum msg).2.status = 2 ∧
        (mServerStep s instNum msg).2.client_id = msg.client_id ∧
        (mServerStep s instNum msg).2.data = invalidPingPayload.take 255) ∧
    (∀ (processed errors : Nat) (msg : SimpleMessage),
      isValidRequest msg.data = false →
        singleServerStep processed errors msg =
          ⟨processed + 1, errors + 1,
            { msg with status := 2,
                       data := "ERROR: Invalid request format".toList.take 255 }⟩) := by
  constructor
  · intro s instNum msg h
    rw [mServerStep, if_pos h]
    exact ⟨rfl, rfl, rfl, rfl⟩
  · intro processed errors msg h
    rw [singleServerStep, if_pos h]

/-- Witness for C1 at a rejected multi-instance payload "PONG" and a
rejected single-mailbox payload "x". -/
theorem C1_invalid_payload_handling_witness :
    (mServerStep initSession 1 ⟨1, 9, "PONG".toList⟩).1 = initSession ∧
    (mServerStep initSession 1 ⟨1, 9, "PONG".toList⟩).2.client_id = 9 ∧
    (singleServerStep 0 0 ⟨1, "x".toList⟩).errors = 1 := by
  refine ⟨?_, ?_, ?_⟩
  · exact (C1_invalid_payload_handling.1 initSession 1 ⟨1, 9, "PONG".toList⟩
      (by decide)).1
  · exact (C1_invalid_payload_handling.1 initSession 1 ⟨1, 9, "PONG".toList⟩
      (by decide)).2.2.1
  · rw [C1_invalid_payload_handling.2 0 0 ⟨1, "x".toList⟩ (by decide)]

/-- Counterexample to C1 as stated: the single-mailbox server increments
its processed-request counter on the invalid payload "x" (from 0 to 1),
although the claim requires the counter to stay unchanged. -/
theorem C1_counterexample :
    (singleServerStep 0 0 ⟨1, "x".toList⟩).processed = 1 ∧
    isValidRequest "x".toList = false := by
  decide
